import Mathlib

/-!
Verification of the katpool-app Stratum core against its specification.

The TypeScript sources are embedded shallowly: JavaScript numbers are
modelled as rationals (ℚ), bigints as naturals, maps as association lists
or functions, and `Date.now()` as an explicit `now : ℚ` parameter.
External capabilities (PoW verification, target calculation, the job
to DAA-score map, block submission) are fields of an `Env` record, as the
spec treats them as black boxes.
-/

set_option linter.unusedVariables false

/-- PoW handle for a cached template (wasm capability `pow.checkWork`):
given a nonce it returns `(isBlock, target)`. -/
structure PoWState where
  checkWork : Nat → Bool × Nat

/-- External capabilities consumed by the stratum core:
`calculateTarget` (wasm), `getPoW`/`getHash` (Templates/Jobs caches),
`rewardMapping` (Jobs.rewardMapping, the jobId to daaScore map) and the
outcome of upstream block submission. -/
structure Env where
  calculateTarget : ℚ → Nat
  getPoW : String → Option PoWState
  getHash : String → Option String
  rewardMapping : String → Option Nat
  submitOk : Bool

/-- Jobs.getDaaScoreFromJobId (src/src/stratum/templates/jobs/index.ts,
lines 29-37): look up the id in the reward mapping, returning 0 when the
id is unknown. -/
def getDaaScoreFromJobId (env : Env) (id : String) : Nat :=
  (env.rewardMapping id).getD 0

/-- Element of `WorkerStats.recentShares` in the part_004 variant:
`{ timestamp, difficulty, nonce }`. -/
structure RecentShare where
  timestamp : ℚ
  difficulty : ℚ
  nonce : Nat
deriving DecidableEq, Repr

/-- WorkerStats (src/unnamed/part_004, lines 59-76): per-worker counters,
vardiff state and the recent-share ring. `asicType` is kept as a string. -/
structure WorkerStats where
  blocksFound : Nat
  sharesFound : Nat
  sharesDiff : ℚ
  staleShares : Nat
  invalidShares : Nat
  workerName : String
  startTime : ℚ
  lastShare : ℚ
  varDiffStartTime : ℚ
  varDiffSharesFound : Nat
  varDiffWindow : Nat
  minDiff : ℚ
  recentShares : List RecentShare
  hashrate : ℚ
  asicType : String
  varDiffEnabled : Bool
deriving DecidableEq, Repr

/-- Contribution (src/types): an element of the share window. -/
structure Contribution where
  address : String
  minerId : String
  difficulty : ℚ
  timestamp : ℚ
  jobId : String
  daaScore : Nat
deriving DecidableEq, Repr

/-- WINDOW_SIZE (src/unnamed/part_002): 10 minutes in milliseconds. -/
def WINDOW_SIZE : ℚ := 10 * 60 * 1000

/-- Which of the four mutually exclusive exits of
`SharesManager.addShare` a call took. -/
inductive ShareOutcome
  | duplicate
  | stale
  | invalid
  | accepted
deriving DecidableEq, Repr

/-- Result of one `addShare` call: the updated worker stats, the
per-worker `minerDuplicatedShares` metric, the share window, and the exit
taken. -/
structure AddShareResult where
  workerStats : WorkerStats
  duplicatedShares : Nat
  shareWindow : List Contribution
  outcome : ShareOutcome
deriving Repr

/-- SharesManager.addShare (src/unnamed/part_004, lines 86-235), the body
run after the worker stats record has been resolved or created by
`getOrCreateWorkerStats` (lines 95-104 only select or create that
record).  Paths, in source order: the duplicate-nonce scan over
`recentShares` (lines 106-119), the stale-header exit when no PoW state
is cached for the hash (129-143), the invalid exit when the share target
exceeds `calculateTarget(currentDifficulty)` (145-162), and the credit
path (164-234) which appends a Contribution to the share window, bumps
`blocksFound` on a successful block submission, increments
`sharesFound`/`varDiffSharesFound`, refreshes `lastShare`/`minDiff`,
appends to `recentShares` and evicts entries older than WINDOW_SIZE.
`workerStats.minDiff || difficulty` is the JS falsy-or: 0 falls back to
the supplied difficulty.  The function contains no throw statement. -/
def addShare (env : Env) (now : ℚ) (minerId address hash : String)
    (difficulty : ℚ) (nonce : Nat) (id : String)
    (workerStats : WorkerStats) (duplicatedShares : Nat)
    (shareWindow : List Contribution) : AddShareResult :=
  if workerStats.recentShares.any (fun share => share.nonce = nonce) then
    ⟨workerStats, duplicatedShares + 1, shareWindow, ShareOutcome.duplicate⟩
  else
    let currentDifficulty := if workerStats.minDiff = 0 then difficulty else workerStats.minDiff
    match env.getPoW hash with
    | none =>
      ⟨{ workerStats with staleShares := workerStats.staleShares + 1 },
        duplicatedShares, shareWindow, ShareOutcome.stale⟩
    | some state =>
      let work := state.checkWork nonce
      let isBlock := work.1
      let target := work.2
      if target ≤ env.calculateTarget currentDifficulty then
        let daaScore := getDaaScoreFromJobId env id
        let share : Contribution := ⟨address, minerId, difficulty, now, id, daaScore⟩
        let ws1 :=
          if isBlock && env.submitOk then
            { workerStats with blocksFound := workerStats.blocksFound + 1 }
          else workerStats
        let newRecent : RecentShare := ⟨now, currentDifficulty, nonce⟩
        let ws2 := { ws1 with
          sharesFound := ws1.sharesFound + 1
          varDiffSharesFound := ws1.varDiffSharesFound + 1
          lastShare := now
          minDiff := currentDifficulty
          recentShares :=
            (ws1.recentShares ++ [newRecent]).dropWhile
              (fun s => decide (WINDOW_SIZE < now - s.timestamp)) }
        ⟨ws2, duplicatedShares, shareWindow ++ [share], ShareOutcome.accepted⟩
      else
        ⟨{ workerStats with invalidShares := workerStats.invalidShares + 1 },
          duplicatedShares, shareWindow, ShareOutcome.invalid⟩

/-- C1: For every call to addShare, exactly one outcome counter is
changed, never more than one: on the accepted path `sharesFound` is
incremented exactly once; on a rejected share exactly one of
`staleShares` (PoW state absent for the header hash), `invalidShares`
(target above calculateTarget of the worker's difficulty), or the
duplicate-share counter is incremented. -/
theorem addShare_exactly_one_counter (env : Env) (now : ℚ)
    (minerId address hash : String) (difficulty : ℚ) (nonce : Nat) (id : String)
    (ws : WorkerStats) (dup : Nat) (win : List Contribution) :
    let r := addShare env now minerId address hash difficulty nonce id ws dup win
    (r.outcome = ShareOutcome.accepted ∧
      r.workerStats.sharesFound = ws.sharesFound + 1 ∧
      r.workerStats.staleShares = ws.staleShares ∧
      r.workerStats.invalidShares = ws.invalidShares ∧
      r.duplicatedShares = dup) ∨
    (r.outcome = ShareOutcome.stale ∧
      r.workerStats.sharesFound = ws.sharesFound ∧
      r.workerStats.staleShares = ws.staleShares + 1 ∧
      r.workerStats.invalidShares = ws.invalidShares ∧
      r.duplicatedShares = dup) ∨
    (r.outcome = ShareOutcome.invalid ∧
      r.workerStats.sharesFound = ws.sharesFound ∧
      r.workerStats.staleShares = ws.staleShares ∧
      r.workerStats.invalidShares = ws.invalidShares + 1 ∧
      r.duplicatedShares = dup) ∨
    (r.outcome = ShareOutcome.duplicate ∧
      r.workerStats.sharesFound = ws.sharesFound ∧
      r.workerStats.staleShares = ws.staleShares ∧
      r.workerStats.invalidShares = ws.invalidShares ∧
      r.duplicatedShares = dup + 1) := by
  unfold addShare
  dsimp only
  split
  · exact Or.inr (Or.inr (Or.inr ⟨rfl, rfl, rfl, rfl, rfl⟩))
  · split
    · exact Or.inr (Or.inl ⟨rfl, rfl, rfl, rfl, rfl⟩)
    · split <;> split <;>
        first
          | exact Or.inr (Or.inr (Or.inl ⟨rfl, rfl, rfl, rfl, rfl⟩))
          | refine Or.inl ⟨rfl, ?_, ?_, ?_, rfl⟩ <;> (dsimp only; split <;> rfl)

/-- getOrCreateWorkerStats (src/unnamed/part_004, lines 50-84): the fresh
stats record created for a previously unseen worker; counters start at 0,
the timestamps at `Date.now()`, `minDiff` at the port's initial
difficulty, and vardiff is enabled exactly on port 8888. -/
def getOrCreateWorkerStats (workerName : String) (now : ℚ) (stratumInitDiff : ℚ)
    (port : Nat) : WorkerStats :=
  { blocksFound := 0
    sharesFound := 0
    sharesDiff := 0
    staleShares := 0
    invalidShares := 0
    workerName := workerName
    startTime := now
    lastShare := now
    varDiffStartTime := now
    varDiffSharesFound := 0
    varDiffWindow := 0
    minDiff := stratumInitDiff
    recentShares := []
    hashrate := 0
    asicType := ""
    varDiffEnabled := decide (port = 8888) }

/-- Errors thrown inside Stratum.onMessage: a StratumError
(src/src/stratum/server/protocol.ts) carries a wire error code, while a
plain JS Error carries only its message. -/
inductive Thrown
  | stratumErr (code : Nat) (msg : String)
  | plainErr (msg : String)
deriving DecidableEq, Repr

/-- Wire response: `result` plus an optional `(code, message)` error. -/
structure StratumResponse where
  result : Bool
  error : Option (Nat × String)
deriving DecidableEq, Repr

/-- Server.onData catch handler (src/src/stratum/server/index.ts, lines
141-165): the fallback response starts as code-20 `unknown`; a
StratumError replaces the error with its own dump and the response is
written with the socket kept open; any other Error keeps code 20, only
replaces the message, and the socket is ended.  The Bool is true when
the socket was ended. -/
def mapCaughtError : Thrown → StratumResponse × Bool
  | Thrown.stratumErr code msg => (⟨false, some (code, msg)⟩, false)
  | Thrown.plainErr msg => (⟨false, some (20, msg)⟩, true)

/-- Per-worker mutable state touched by one mining.submit. -/
structure SubmitState where
  workerStats : WorkerStats
  duplicatedShares : Nat
  shareWindow : List Contribution
deriving DecidableEq, Repr

/-- Stratum.onMessage, case mining.submit (src/unnamed/part_007, lines
576-703).  `params[0]` is pre-split into `address`/`name`; the socket's
worker map is `sockWorkers` (name to address); extranonce padding and
hex/decimal nonce parsing are abstracted into the already-parsed
`nonce`.  A worker mismatch throws a plain Error (lines 585-603); a
missing job returns the code-21 `job-not-found` response (lines
604-624); otherwise `addShare` runs with `workerDiff || socketDiff`.
The `addShare` of part_004 contains no throw statement and the call on
line 655 is not awaited, so the catch on lines 664-701 (which would map
a thrown 'Duplicate share' to wire code 22) can never fire: the response
keeps `result: true, error: null`. -/
def onMessageSubmit (env : Env) (now : ℚ) (address name jobId : String) (nonce : Nat)
    (sockWorkers : List (String × String)) (sockDifficulty : ℚ)
    (st : SubmitState) : Except Thrown (StratumResponse × SubmitState) :=
  match sockWorkers.lookup name with
  | none => Except.error (Thrown.plainErr ("Mismatching worker details request: " ++ name))
  | some workerAddress =>
    if workerAddress ≠ address then
      Except.error (Thrown.plainErr ("Mismatching worker details request: " ++ name))
    else
      match env.getHash jobId with
      | none => Except.ok (⟨false, some (21, "job-not-found")⟩, st)
      | some hash =>
        let workerDiff := st.workerStats.minDiff
        let currentDifficulty := if workerDiff = 0 then sockDifficulty else workerDiff
        let r := addShare env now name address hash currentDifficulty nonce jobId
          st.workerStats st.duplicatedShares st.shareWindow
        Except.ok (⟨true, none⟩, ⟨r.workerStats, r.duplicatedShares, r.shareWindow⟩)

/-- One mining.submit as seen on the wire: the handler result, or the
server's catch mapping when the handler threw (Server.onData,
src/src/stratum/server/index.ts lines 126-186).  Returns the response,
the resulting state, and whether the socket was ended. -/
def handleSubmit (env : Env) (now : ℚ) (address name jobId : String) (nonce : Nat)
    (sockWorkers : List (String × String)) (sockDifficulty : ℚ)
    (st : SubmitState) : StratumResponse × SubmitState × Bool :=
  match onMessageSubmit env now address name jobId nonce sockWorkers sockDifficulty st with
  | Except.ok (resp, st2) => (resp, st2, false)
  | Except.error e =>
    let m := mapCaughtError e
    (m.1, st, m.2)

/-- Helper: an element appended at the back survives `dropWhile` when it
fails the predicate. -/
theorem mem_dropWhile_append_last {α : Type} (l : List α) (x : α) (p : α → Bool)
    (hx : p x = false) : x ∈ (l ++ [x]).dropWhile p := by
  induction l with
  | nil => simp [List.dropWhile, hx]
  | cons a l ih =>
    simp only [List.cons_append, List.dropWhile]
    cases h : p a
    · simp
    · exact ih

/-- Helper: an accepted `addShare` call bumps `sharesFound` by one and
leaves the submitted nonce in `recentShares`. -/
theorem addShare_accepted_spec (env : Env) (now : ℚ)
    (minerId address hash : String) (difficulty : ℚ) (nonce : Nat) (id : String)
    (ws : WorkerStats) (dup : Nat) (win : List Contribution) :
    (addShare env now minerId address hash difficulty nonce id ws dup win).outcome =
      ShareOutcome.accepted →
    (addShare env now minerId address hash difficulty nonce id ws dup win).workerStats.sharesFound
        = ws.sharesFound + 1 ∧
    ((addShare env now minerId address hash difficulty nonce id
        ws dup win).workerStats.recentShares.any
      (fun share => share.nonce = nonce)) = true := by
  unfold addShare
  dsimp only
  split
  · intro hacc
    simp at hacc
  · split
    · intro hacc
      simp at hacc
    · split <;> split <;> intro hacc
      case' isFalse.h_2.isTrue.isFalse => simp at hacc
      case' isFalse.h_2.isFalse.isFalse => simp at hacc
      all_goals constructor
      all_goals first
        | (dsimp only; split <;> rfl)
        | (dsimp only
           refine List.any_eq_true.mpr
             ⟨_, mem_dropWhile_append_last _ _ _ (by simp [WINDOW_SIZE]), ?_⟩
           simp)

/-- Helper: when the nonce is already present in `recentShares`,
`addShare` takes the duplicate exit and only bumps the duplicate
metric. -/
theorem addShare_duplicate_of_mem (env : Env) (now : ℚ)
    (minerId address hash : String) (difficulty : ℚ) (nonce : Nat) (id : String)
    (ws : WorkerStats) (dup : Nat) (win : List Contribution)
    (hmem : (ws.recentShares.any (fun share => share.nonce = nonce)) = true) :
    addShare env now minerId address hash difficulty nonce id ws dup win
      = ⟨ws, dup + 1, win, ShareOutcome.duplicate⟩ := by
  unfold addShare
  simp [hmem]

/-- Environment for the duplicate-share scenario: job "a1" maps to header
"h0", whose PoW handle reports every nonce as a non-block share with
target 5, below the target bound 10 for any difficulty. -/
def c2Env : Env :=
  { calculateTarget := fun _ => 10
    getPoW := fun h => if h = "h0" then some ⟨fun _ => (false, 5)⟩ else none
    getHash := fun id => if id = "a1" then some "h0" else none
    rewardMapping := fun _ => none
    submitOk := false }

/-- Fresh stats for worker w1 on port 8888 with initial difficulty 2048. -/
def c2Stats0 : WorkerStats := getOrCreateWorkerStats "w1" 0 2048 8888

/-- First mining.submit of nonce 1234 by worker w1. -/
def c2Run1 : StratumResponse × SubmitState × Bool :=
  handleSubmit c2Env 1000 "kaspa:abc" "w1" "a1" 1234 [("w1", "kaspa:abc")] 2048
    ⟨c2Stats0, 0, []⟩

/-- Second mining.submit carrying the identical nonce 1234. -/
def c2Run2 : StratumResponse × SubmitState × Bool :=
  handleSubmit c2Env 2000 "kaspa:abc" "w1" "a1" 1234 [("w1", "kaspa:abc")] 2048
    c2Run1.2.1

/-- C2 counterexample: two mining.submit requests with the identical
nonce 1234 for worker w1: the first is accepted (sharesFound = 1) and the
second does hit the duplicate counter (duplicate counter = 1,
sharesFound stays 1), but its wire response is `result: true, error:
null` rather than error code 22 — `addShare` records the duplicate in
the metric and returns without throwing, so the handler's
duplicate-share error mapping never runs. -/
theorem submit_duplicate_no_wire_error :
    c2Run1.1 = ⟨true, none⟩ ∧
    c2Run1.2.1.workerStats.sharesFound = 1 ∧
    c2Run2.1 = ⟨true, none⟩ ∧
    c2Run2.1.error = none ∧
    c2Run2.2.1.workerStats.sharesFound = 1 ∧
    c2Run2.2.1.duplicatedShares = 1 := by
  refine ⟨rfl, ?_, rfl, rfl, ?_, ?_⟩ <;>
    simp [c2Run2, c2Run1, handleSubmit, onMessageSubmit, c2Env, c2Stats0,
      getOrCreateWorkerStats, addShare, WINDOW_SIZE]

/-- Helper: a mining.submit whose nonce already occurs in the worker's
`recentShares` yields the success response and only bumps the duplicate
metric. -/
theorem handleSubmit_duplicate (env : Env) (now : ℚ)
    (address name jobId hash : String) (nonce : Nat)
    (sockWorkers : List (String × String)) (sockDiff : ℚ) (st : SubmitState)
    (hworker : sockWorkers.lookup name = some address)
    (hhash : env.getHash jobId = some hash)
    (hmem : (st.workerStats.recentShares.any (fun share => share.nonce = nonce)) = true) :
    handleSubmit env now address name jobId nonce sockWorkers sockDiff st =
      (⟨true, none⟩, ⟨st.workerStats, st.duplicatedShares + 1, st.shareWindow⟩, false) := by
  simp [handleSubmit, onMessageSubmit, hworker, hhash,
    addShare_duplicate_of_mem env now name address hash
      (if st.workerStats.minDiff = 0 then sockDiff else st.workerStats.minDiff) nonce jobId
      st.workerStats st.duplicatedShares st.shareWindow hmem]

/-- C2 amended: For every worker, when two mining.submit requests
carrying an identical nonce for that same worker are processed, the
first is accepted (sharesFound becomes 1 more) and the second is
detected as a duplicate, leaving sharesFound unchanged and the duplicate
counter incremented by one — but no wire error 22 is returned: the
second response still carries result true and a null error, because
addShare reports the duplicate only through the metric and returns
without throwing, so the handler's duplicate-share error mapping is dead
code. -/
theorem submit_duplicate_amended (env : Env) (now now2 : ℚ)
    (address name jobId hash : String) (nonce : Nat)
    (sockWorkers : List (String × String)) (sockDiff : ℚ) (st : SubmitState)
    (hworker : sockWorkers.lookup name = some address)
    (hhash : env.getHash jobId = some hash)
    (hacc : (addShare env now name address hash
        (if st.workerStats.minDiff = 0 then sockDiff else st.workerStats.minDiff) nonce jobId
        st.workerStats st.duplicatedShares st.shareWindow).outcome = ShareOutcome.accepted) :
    let r1 := addShare env now name address hash
      (if st.workerStats.minDiff = 0 then sockDiff else st.workerStats.minDiff) nonce jobId
      st.workerStats st.duplicatedShares st.shareWindow
    handleSubmit env now address name jobId nonce sockWorkers sockDiff st =
      (⟨true, none⟩, ⟨r1.workerStats, r1.duplicatedShares, r1.shareWindow⟩, false) ∧
    handleSubmit env now2 address name jobId nonce sockWorkers sockDiff
        ⟨r1.workerStats, r1.duplicatedShares, r1.shareWindow⟩ =
      (⟨true, none⟩, ⟨r1.workerStats, r1.duplicatedShares + 1, r1.shareWindow⟩, false) ∧
    r1.workerStats.sharesFound = st.workerStats.sharesFound + 1 := by
  have hspec := addShare_accepted_spec env now name address hash
    (if st.workerStats.minDiff = 0 then sockDiff else st.workerStats.minDiff) nonce jobId
    st.workerStats st.duplicatedShares st.shareWindow hacc
  dsimp only
  refine ⟨?_, ?_, hspec.1⟩
  · simp [handleSubmit, onMessageSubmit, hworker, hhash]
  · exact handleSubmit_duplicate env now2 address name jobId hash nonce sockWorkers sockDiff
      _ hworker hhash hspec.2

/-- Witness for the amended C2 theorem at the concrete duplicate-share
scenario. -/
theorem submit_duplicate_amended_witness :
    ([("w1", "kaspa:abc")].lookup "w1" = some "kaspa:abc") ∧
    (c2Env.getHash "a1" = some "h0") ∧
    ((addShare c2Env 1000 "w1" "kaspa:abc" "h0"
        (if c2Stats0.minDiff = 0 then 2048 else c2Stats0.minDiff) 1234 "a1"
        c2Stats0 0 []).outcome = ShareOutcome.accepted) ∧
    (let r1 := addShare c2Env 1000 "w1" "kaspa:abc" "h0"
        (if c2Stats0.minDiff = 0 then 2048 else c2Stats0.minDiff) 1234 "a1" c2Stats0 0 []
     handleSubmit c2Env 1000 "kaspa:abc" "w1" "a1" 1234 [("w1", "kaspa:abc")] 2048
        ⟨c2Stats0, 0, []⟩ =
        (⟨true, none⟩, ⟨r1.workerStats, r1.duplicatedShares, r1.shareWindow⟩, false) ∧
     handleSubmit c2Env 2000 "kaspa:abc" "w1" "a1" 1234 [("w1", "kaspa:abc")] 2048
        ⟨r1.workerStats, r1.duplicatedShares, r1.shareWindow⟩ =
        (⟨true, none⟩, ⟨r1.workerStats, r1.duplicatedShares + 1, r1.shareWindow⟩, false) ∧
     r1.workerStats.sharesFound = c2Stats0.sharesFound + 1) :=
  ⟨rfl, rfl, by simp [addShare, c2Env, c2Stats0, getOrCreateWorkerStats],
    submit_duplicate_amended c2Env 1000 2000 "kaspa:abc" "w1" "a1" "h0" 1234
      [("w1", "kaspa:abc")] 2048 ⟨c2Stats0, 0, []⟩ rfl rfl
      (by simp [addShare, c2Env, c2Stats0, getOrCreateWorkerStats])⟩

/-- OneGH (src/unnamed/part_003, line 223): `Math.pow(10, 9)`. -/
def OneGH : ℚ := 10 ^ 9

/-- ASIC-class difficulty table of updateVarDiff (src/unnamed/part_003,
lines 224-244, identical in src/src/stratum/sharesManager.ts lines
806-826): the if/else-if chain keyed on `stats.hashrate`, returning the
tier difficulty of the first matching branch and nothing when no branch
matches (in which case updateVarDiff keeps the clamped candidate). -/
def asicOverride (hashrate : ℚ) : Option ℚ :=
  if hashrate ≤ OneGH * 100 then some 64
  else if OneGH * 101 ≤ hashrate ∧ hashrate ≤ OneGH * 200 then some 128
  else if OneGH * 200 ≤ hashrate ∧ hashrate ≤ OneGH * 400 then some 256
  else if OneGH * 401 ≤ hashrate ∧ hashrate ≤ OneGH * 1000 then some 512
  else if OneGH * 1001 ≤ hashrate ∧ hashrate ≤ OneGH * 2000 then some 1024
  else if OneGH * 2001 ≤ hashrate ∧ hashrate ≤ OneGH * 5000 then some 2048
  else if OneGH * 5001 ≤ hashrate ∧ hashrate ≤ OneGH * 8000 then some 4096
  else if OneGH * 8001 ≤ hashrate ∧ hashrate ≤ OneGH * 12000 then some 8192
  else if OneGH * 12001 ≤ hashrate ∧ hashrate ≤ OneGH * 15000 then some 16384
  else if OneGH * 15001 ≤ hashrate ∧ hashrate ≤ OneGH * 21000 then some 32768
  else none

/-- Rejection-rate gate of updateVarDiff (src/unnamed/part_003, line
222): `stats.invalidShares / stats.sharesFound >=
varDiffRejectionRateThreshold / 100` with threshold 20.  JS float
semantics at sharesFound = 0: invalid/0 is Infinity (the gate fires)
unless invalid is also 0, where 0/0 is NaN and every comparison is
false. -/
def rejectionRateHigh (s : WorkerStats) : Bool :=
  if s.sharesFound = 0 then decide (0 < s.invalidShares)
  else decide ((20 : ℚ) / 100 ≤ (s.invalidShares : ℚ) / (s.sharesFound : ℚ))

/-- Difficulty bounds of a stratum port. -/
structure VardiffCfg where
  stratumMinDiff : ℚ
  stratumMaxDiff : ℚ
deriving DecidableEq, Repr

/-- VariableDifficulty.updateVarDiff (src/unnamed/part_003, lines
213-276; same algorithm in src/src/stratum/sharesManager.ts lines
795-842).  With `clamp`, the candidate is snapped down to a power of two
(`Math.pow(2, Math.floor(Math.log2(minDiff)))`, modelled with `Int.log`
for positive candidates; a nonpositive candidate would produce NaN in JS
and is outside this rational model).  The candidate is clamped into
`[stratumMinDiff, stratumMaxDiff]`; when the rejection-rate gate fires,
the ASIC-table value replaces the clamped candidate without being
re-clamped.  If the final value differs from the current `minDiff`, the
vardiff tracker is disarmed (`varDiffStartTime` := epoch sentinel 0,
`varDiffWindow` := 0) and `minDiff` is overwritten; the source returns
the previous `minDiff`, which no caller uses. -/
def updateVarDiff (cfg : VardiffCfg) (s : WorkerStats) (minDiffArg : ℚ)
    (clamp : Bool) : WorkerStats :=
  let md := if clamp then (2 : ℚ) ^ (Int.log 2 minDiffArg) else minDiffArg
  let previousMinDiff := s.minDiff
  let clamped := max cfg.stratumMinDiff (min cfg.stratumMaxDiff md)
  let newMinDiff := if rejectionRateHigh s then (asicOverride s.hashrate).getD clamped
    else clamped
  if newMinDiff ≠ previousMinDiff then
    { s with varDiffStartTime := 0, varDiffWindow := 0, minDiff := newMinDiff }
  else s

/-- Worker state for the C3 counterexample: one share found, one invalid
share (rejection rate 100 percent), hashrate 0. -/
def c3Stats : WorkerStats :=
  { getOrCreateWorkerStats "w1" 0 2048 8888 with sharesFound := 1, invalidShares := 1 }

/-- C3 counterexample: with stratumMinDiff = 256 and stratumMaxDiff =
131072, a worker whose minDiff 2048 is inside the bounds and whose
rejection rate is 100 percent gets minDiff 64 from the ASIC table after
updateVarDiff with candidate 512 — below stratumMinDiff, so the claimed
invariant stratumMinDiff ≤ minDiff fails right after an updateVarDiff
call. -/
theorem updateVarDiff_escapes_bounds :
    (updateVarDiff ⟨256, 131072⟩ c3Stats 512 false).minDiff = 64 ∧
    ¬ ((256 : ℚ) ≤ (updateVarDiff ⟨256, 131072⟩ c3Stats 512 false).minDiff) := by
  constructor <;>
    norm_num [updateVarDiff, rejectionRateHigh, asicOverride, OneGH, c3Stats,
      getOrCreateWorkerStats]

/-- C3 amended: stratumMinDiff ≤ minDiff ≤ stratumMaxDiff is preserved by
updateVarDiff whenever the rejection-rate override does not fire (and the
configured bounds are ordered); when invalidShares/sharesFound ≥ 0.20 the
ASIC-table value (64 to 32768) is written without re-clamping and can
leave the configured range, as the counterexample shows. -/
theorem updateVarDiff_clamped (cfg : VardiffCfg) (s : WorkerStats) (minDiffArg : ℚ)
    (clamp : Bool)
    (hminmax : cfg.stratumMinDiff ≤ cfg.stratumMaxDiff)
    (hlo : cfg.stratumMinDiff ≤ s.minDiff) (hhi : s.minDiff ≤ cfg.stratumMaxDiff)
    (hno : rejectionRateHigh s = false) :
    cfg.stratumMinDiff ≤ (updateVarDiff cfg s minDiffArg clamp).minDiff ∧
    (updateVarDiff cfg s minDiffArg clamp).minDiff ≤ cfg.stratumMaxDiff := by
  unfold updateVarDiff
  have hcond : ¬ (rejectionRateHigh s = true) := by simp [hno]
  dsimp only
  rw [if_neg hcond]
  split <;> split
  · exact ⟨le_max_left _ _, max_le hminmax (min_le_left _ _)⟩
  · exact ⟨hlo, hhi⟩
  · exact ⟨le_max_left _ _, max_le hminmax (min_le_left _ _)⟩
  · exact ⟨hlo, hhi⟩

/-- Witness for the amended C3 theorem: bounds [64, 131072], a clean
worker at minDiff 2048, candidate 3000 with power-of-two clamping. -/
theorem updateVarDiff_clamped_witness :
    ((64 : ℚ) ≤ 131072) ∧
    ((64 : ℚ) ≤ (getOrCreateWorkerStats "w1" 0 2048 8888).minDiff) ∧
    ((getOrCreateWorkerStats "w1" 0 2048 8888).minDiff ≤ 131072) ∧
    (rejectionRateHigh (getOrCreateWorkerStats "w1" 0 2048 8888) = false) ∧
    ((64 : ℚ) ≤
      (updateVarDiff ⟨64, 131072⟩ (getOrCreateWorkerStats "w1" 0 2048 8888) 3000 true).minDiff ∧
      (updateVarDiff ⟨64, 131072⟩ (getOrCreateWorkerStats "w1" 0 2048 8888) 3000 true).minDiff
        ≤ 131072) :=
  ⟨by norm_num, by norm_num [getOrCreateWorkerStats], by norm_num [getOrCreateWorkerStats],
    by norm_num [rejectionRateHigh, getOrCreateWorkerStats],
    updateVarDiff_clamped ⟨64, 131072⟩ (getOrCreateWorkerStats "w1" 0 2048 8888) 3000 true
      (by norm_num) (by norm_num [getOrCreateWorkerStats])
      (by norm_num [getOrCreateWorkerStats])
      (by norm_num [rejectionRateHigh, getOrCreateWorkerStats])⟩

set_option maxHeartbeats 1600000 in
/-- Helper: which tier produced a value of the ASIC table, with the
bounds that branch guarantees (the 256 tier starts strictly above
200 GH/s because the 128 tier wins the overlapping boundary). -/
theorem asicOverride_cases (h v : ℚ) (he : asicOverride h = some v) :
    (v = 64 ∧ h ≤ OneGH * 100) ∨
    (v = 128 ∧ OneGH * 101 ≤ h ∧ h ≤ OneGH * 200) ∨
    (v = 256 ∧ OneGH * 200 < h ∧ h ≤ OneGH * 400) ∨
    (v = 512 ∧ OneGH * 401 ≤ h ∧ h ≤ OneGH * 1000) ∨
    (v = 1024 ∧ OneGH * 1001 ≤ h ∧ h ≤ OneGH * 2000) ∨
    (v = 2048 ∧ OneGH * 2001 ≤ h ∧ h ≤ OneGH * 5000) ∨
    (v = 4096 ∧ OneGH * 5001 ≤ h ∧ h ≤ OneGH * 8000) ∨
    (v = 8192 ∧ OneGH * 8001 ≤ h ∧ h ≤ OneGH * 12000) ∨
    (v = 16384 ∧ OneGH * 12001 ≤ h ∧ h ≤ OneGH * 15000) ∨
    (v = 32768 ∧ OneGH * 15001 ≤ h ∧ h ≤ OneGH * 21000) := by
  have hpos : (0 : ℚ) < OneGH := by norm_num [OneGH]
  unfold asicOverride at he
  split_ifs at he with g1 g2 g3 g4 g5 g6 g7 g8 g9 g10
  · exact Or.inl ⟨(Option.some.inj he).symm, g1⟩
  · exact Or.inr (Or.inl ⟨(Option.some.inj he).symm, g2.1, g2.2⟩)
  · refine Or.inr (Or.inr (Or.inl ⟨(Option.some.inj he).symm, ?_, g3.2⟩))
    by_contra hc
    push_neg at hc
    exact g2 ⟨by linarith [g3.1], hc⟩
  · exact Or.inr (Or.inr (Or.inr (Or.inl ⟨(Option.some.inj he).symm, g4.1, g4.2⟩)))
  · exact Or.inr (Or.inr (Or.inr (Or.inr (Or.inl
      ⟨(Option.some.inj he).symm, g5.1, g5.2⟩))))
  · exact Or.inr (Or.inr (Or.inr (Or.inr (Or.inr (Or.inl
      ⟨(Option.some.inj he).symm, g6.1, g6.2⟩)))))
  · exact Or.inr (Or.inr (Or.inr (Or.inr (Or.inr (Or.inr (Or.inl
      ⟨(Option.some.inj he).symm, g7.1, g7.2⟩))))))
  · exact Or.inr (Or.inr (Or.inr (Or.inr (Or.inr (Or.inr (Or.inr (Or.inl
      ⟨(Option.some.inj he).symm, g8.1, g8.2⟩)))))))
  · exact Or.inr (Or.inr (Or.inr (Or.inr (Or.inr (Or.inr (Or.inr (Or.inr (Or.inl
      ⟨(Option.some.inj he).symm, g9.1, g9.2⟩))))))))
  · exact Or.inr (Or.inr (Or.inr (Or.inr (Or.inr (Or.inr (Or.inr (Or.inr (Or.inr
      ⟨(Option.some.inj he).symm, g10.1, g10.2⟩))))))))

set_option maxHeartbeats 1600000 in
/-- Helper: the ASIC table is monotone non-decreasing on the hashrates it
covers. -/
theorem asicOverride_monotone (h1 h2 v1 v2 : ℚ) (e1 : asicOverride h1 = some v1)
    (e2 : asicOverride h2 = some v2) (hle : h1 ≤ h2) : v1 ≤ v2 := by
  have hpos : (0 : ℚ) < OneGH := by norm_num [OneGH]
  rcases asicOverride_cases h1 v1 e1 with
    ⟨rfl, u1⟩ | ⟨rfl, l1, u1⟩ | ⟨rfl, l1, u1⟩ | ⟨rfl, l1, u1⟩ | ⟨rfl, l1, u1⟩ |
    ⟨rfl, l1, u1⟩ | ⟨rfl, l1, u1⟩ | ⟨rfl, l1, u1⟩ | ⟨rfl, l1, u1⟩ | ⟨rfl, l1, u1⟩ <;>
  rcases asicOverride_cases h2 v2 e2 with
    ⟨rfl, u2⟩ | ⟨rfl, l2, u2⟩ | ⟨rfl, l2, u2⟩ | ⟨rfl, l2, u2⟩ | ⟨rfl, l2, u2⟩ |
    ⟨rfl, l2, u2⟩ | ⟨rfl, l2, u2⟩ | ⟨rfl, l2, u2⟩ | ⟨rfl, l2, u2⟩ | ⟨rfl, l2, u2⟩ <;>
  linarith

/-- Modelled from the spec: the tier ranges of the ASIC-class table
(tier thresholds in GH/s: ≤100; 101–200; 201–400; 401–1000; 1001–2000;
2001–5000; 5001–8000; 8001–12000; 12001–15000; 15001–21000, all ranges
closed). -/
def inSpecTierDomain (h : ℚ) : Prop :=
  h ≤ OneGH * 100 ∨
  (OneGH * 101 ≤ h ∧ h ≤ OneGH * 200) ∨
  (OneGH * 201 ≤ h ∧ h ≤ OneGH * 400) ∨
  (OneGH * 401 ≤ h ∧ h ≤ OneGH * 1000) ∨
  (OneGH * 1001 ≤ h ∧ h ≤ OneGH * 2000) ∨
  (OneGH * 2001 ≤ h ∧ h ≤ OneGH * 5000) ∨
  (OneGH * 5001 ≤ h ∧ h ≤ OneGH * 8000) ∨
  (OneGH * 8001 ≤ h ∧ h ≤ OneGH * 12000) ∨
  (OneGH * 12001 ≤ h ∧ h ≤ OneGH * 15000) ∨
  (OneGH * 15001 ≤ h ∧ h ≤ OneGH * 21000)

/-- Helper: every hashrate inside one of the spec's tier ranges is
covered by the code's if/else-if chain. -/
theorem asicOverride_total (h : ℚ) (hd : inSpecTierDomain h) :
    (asicOverride h).isSome := by
  have hpos : (0 : ℚ) < OneGH := by norm_num [OneGH]
  unfold asicOverride
  rcases hd with u | ⟨l, u⟩ | ⟨l, u⟩ | ⟨l, u⟩ | ⟨l, u⟩ | ⟨l, u⟩ | ⟨l, u⟩ | ⟨l, u⟩ |
    ⟨l, u⟩ | ⟨l, u⟩
  · rw [if_pos u]
    rfl
  · rw [if_neg (show ¬ (h ≤ OneGH * 100) from fun hx => by linarith),
      if_pos (show OneGH * 101 ≤ h ∧ h ≤ OneGH * 200 from ⟨by linarith, u⟩)]
    rfl
  · rw [if_neg (show ¬ (h ≤ OneGH * 100) from fun hx => by linarith),
      if_neg (show ¬ (OneGH * 101 ≤ h ∧ h ≤ OneGH * 200) from fun hx => by linarith [hx.1, hx.2]),
      if_pos (show OneGH * 200 ≤ h ∧ h ≤ OneGH * 400 from ⟨by linarith, u⟩)]
    rfl
  · rw [if_neg (show ¬ (h ≤ OneGH * 100) from fun hx => by linarith),
      if_neg (show ¬ (OneGH * 101 ≤ h ∧ h ≤ OneGH * 200) from fun hx => by linarith [hx.1, hx.2]),
      if_neg (show ¬ (OneGH * 200 ≤ h ∧ h ≤ OneGH * 400) from fun hx => by linarith [hx.1, hx.2]),
      if_pos (show OneGH * 401 ≤ h ∧ h ≤ OneGH * 1000 from ⟨by linarith, u⟩)]
    rfl
  · rw [if_neg (show ¬ (h ≤ OneGH * 100) from fun hx => by linarith),
      if_neg (show ¬ (OneGH * 101 ≤ h ∧ h ≤ OneGH * 200) from fun hx => by linarith [hx.1, hx.2]),
      if_neg (show ¬ (OneGH * 200 ≤ h ∧ h ≤ OneGH * 400) from fun hx => by linarith [hx.1, hx.2]),
      if_neg (show ¬ (OneGH * 401 ≤ h ∧ h ≤ OneGH * 1000) from fun hx => by linarith [hx.1, hx.2]),
      if_pos (show OneGH * 1001 ≤ h ∧ h ≤ OneGH * 2000 from ⟨by linarith, u⟩)]
    rfl
  · rw [if_neg (show ¬ (h ≤ OneGH * 100) from fun hx => by linarith),
      if_neg (show ¬ (OneGH * 101 ≤ h ∧ h ≤ OneGH * 200) from fun hx => by linarith [hx.1, hx.2]),
      if_neg (show ¬ (OneGH * 200 ≤ h ∧ h ≤ OneGH * 400) from fun hx => by linarith [hx.1, hx.2]),
      if_neg (show ¬ (OneGH * 401 ≤ h ∧ h ≤ OneGH * 1000) from fun hx => by linarith [hx.1, hx.2]),
      if_neg (show ¬ (OneGH * 1001 ≤ h ∧ h ≤ OneGH * 2000) from fun hx => by linarith [hx.1, hx.2]),
      if_pos (show OneGH * 2001 ≤ h ∧ h ≤ OneGH * 5000 from ⟨by linarith, u⟩)]
    rfl
  · rw [if_neg (show ¬ (h ≤ OneGH * 100) from fun hx => by linarith),
      if_neg (show ¬ (OneGH * 101 ≤ h ∧ h ≤ OneGH * 200) from fun hx => by linarith [hx.1, hx.2]),
      if_neg (show ¬ (OneGH * 200 ≤ h ∧ h ≤ OneGH * 400) from fun hx => by linarith [hx.1, hx.2]),
      if_neg (show ¬ (OneGH * 401 ≤ h ∧ h ≤ OneGH * 1000) from fun hx => by linarith [hx.1, hx.2]),
      if_neg (show ¬ (OneGH * 1001 ≤ h ∧ h ≤ OneGH * 2000) from fun hx => by linarith [hx.1, hx.2]),
      if_neg (show ¬ (OneGH * 2001 ≤ h ∧ h ≤ OneGH * 5000) from fun hx => by linarith [hx.1, hx.2]),
      if_pos (show OneGH * 5001 ≤ h ∧ h ≤ OneGH * 8000 from ⟨by linarith, u⟩)]
    rfl
  · rw [if_neg (show ¬ (h ≤ OneGH * 100) from fun hx => by linarith),
      if_neg (show ¬ (OneGH * 101 ≤ h ∧ h ≤ OneGH * 200) from fun hx => by linarith [hx.1, hx.2]),
      if_neg (show ¬ (OneGH * 200 ≤ h ∧ h ≤ OneGH * 400) from fun hx => by linarith [hx.1, hx.2]),
      if_neg (show ¬ (OneGH * 401 ≤ h ∧ h ≤ OneGH * 1000) from fun hx => by linarith [hx.1, hx.2]),
      if_neg (show ¬ (OneGH * 1001 ≤ h ∧ h ≤ OneGH * 2000) from fun hx => by linarith [hx.1, hx.2]),
      if_neg (show ¬ (OneGH * 2001 ≤ h ∧ h ≤ OneGH * 5000) from fun hx => by linarith [hx.1, hx.2]),
      if_neg (show ¬ (OneGH * 5001 ≤ h ∧ h ≤ OneGH * 8000) from fun hx => by linarith [hx.1, hx.2]),
      if_pos (show OneGH * 8001 ≤ h ∧ h ≤ OneGH * 12000 from ⟨by linarith, u⟩)]
    rfl
  · rw [if_neg (show ¬ (h ≤ OneGH * 100) from fun hx => by linarith),
      if_neg (show ¬ (OneGH * 101 ≤ h ∧ h ≤ OneGH * 200) from fun hx => by linarith [hx.1, hx.2]),
      if_neg (show ¬ (OneGH * 200 ≤ h ∧ h ≤ OneGH * 400) from fun hx => by linarith [hx.1, hx.2]),
      if_neg (show ¬ (OneGH * 401 ≤ h ∧ h ≤ OneGH * 1000) from fun hx => by linarith [hx.1, hx.2]),
      if_neg (show ¬ (OneGH * 1001 ≤ h ∧ h ≤ OneGH * 2000) from fun hx => by linarith [hx.1, hx.2]),
      if_neg (show ¬ (OneGH * 2001 ≤ h ∧ h ≤ OneGH * 5000) from fun hx => by linarith [hx.1, hx.2]),
      if_neg (show ¬ (OneGH * 5001 ≤ h ∧ h ≤ OneGH * 8000) from fun hx => by linarith [hx.1, hx.2]),
      if_neg (show ¬ (OneGH * 8001 ≤ h ∧ h ≤ OneGH * 12000) from fun hx => by linarith [hx.1, hx.2]),
      if_pos (show OneGH * 12001 ≤ h ∧ h ≤ OneGH * 15000 from ⟨by linarith, u⟩)]
    rfl
  · rw [if_neg (show ¬ (h ≤ OneGH * 100) from fun hx => by linarith),
      if_neg (show ¬ (OneGH * 101 ≤ h ∧ h ≤ OneGH * 200) from fun hx => by linarith [hx.1, hx.2]),
      if_neg (show ¬ (OneGH * 200 ≤ h ∧ h ≤ OneGH * 400) from fun hx => by linarith [hx.1, hx.2]),
      if_neg (show ¬ (OneGH * 401 ≤ h ∧ h ≤ OneGH * 1000) from fun hx => by linarith [hx.1, hx.2]),
      if_neg (show ¬ (OneGH * 1001 ≤ h ∧ h ≤ OneGH * 2000) from fun hx => by linarith [hx.1, hx.2]),
      if_neg (show ¬ (OneGH * 2001 ≤ h ∧ h ≤ OneGH * 5000) from fun hx => by linarith [hx.1, hx.2]),
      if_neg (show ¬ (OneGH * 5001 ≤ h ∧ h ≤ OneGH * 8000) from fun hx => by linarith [hx.1, hx.2]),
      if_neg (show ¬ (OneGH * 8001 ≤ h ∧ h ≤ OneGH * 12000) from fun hx => by linarith [hx.1, hx.2]),
      if_neg (show ¬ (OneGH * 12001 ≤ h ∧ h ≤ OneGH * 15000) from fun hx => by linarith [hx.1, hx.2]),
      if_pos (show OneGH * 15001 ≤ h ∧ h ≤ OneGH * 21000 from ⟨by linarith, u⟩)]
    rfl

/-- C5: The ASIC-class difficulty table applied by updateVarDiff when the
rejection rate is at least 0.20 is total on its domain (every hashrate
in the tier ranges up to 21000 GH/s maps to a tier value), monotone
non-decreasing in hashrate, and the overlapping 200 GH/s boundary
resolves to the lower tier (128) by first match. -/
theorem asic_table_total_monotone (h h1 h2 v1 v2 : ℚ) :
    (inSpecTierDomain h → (asicOverride h).isSome) ∧
    (asicOverride h1 = some v1 → asicOverride h2 = some v2 → h1 ≤ h2 → v1 ≤ v2) ∧
    asicOverride (OneGH * 200) = some 128 :=
  ⟨asicOverride_total h,
   fun e1 e2 hle => asicOverride_monotone h1 h2 v1 v2 e1 e2 hle,
   by norm_num [asicOverride, OneGH]⟩

/-- Witness for the C5 theorem at concrete hashrates 50 GH/s and
150 GH/s. -/
theorem asic_table_total_monotone_witness :
    inSpecTierDomain (OneGH * 150) ∧
    (asicOverride (OneGH * 150)).isSome ∧
    asicOverride (OneGH * 50) = some 64 ∧
    asicOverride (OneGH * 150) = some 128 ∧
    ((OneGH * 50 : ℚ) ≤ OneGH * 150) ∧
    ((64 : ℚ) ≤ 128) ∧
    asicOverride (OneGH * 200) = some 128 := by
  have hd : inSpecTierDomain (OneGH * 150) := by norm_num [inSpecTierDomain, OneGH]
  have e50 : asicOverride (OneGH * 50) = some 64 := by norm_num [asicOverride, OneGH]
  have e150 : asicOverride (OneGH * 150) = some 128 := by norm_num [asicOverride, OneGH]
  have hle : (OneGH * 50 : ℚ) ≤ OneGH * 150 := by norm_num [OneGH]
  have t := asic_table_total_monotone (OneGH * 150) (OneGH * 50) (OneGH * 150) 64 128
  exact ⟨hd, t.1 hd, e50, e150, hle, t.2.1 e50 e150 hle, t.2.2⟩

/-- SharesManager.getSharesSinceLastAllocation (src/unnamed/part_004,
lines 366-377, identical in src/src/stratum/sharesManager.ts lines
563-574): while the share window is nonempty and the front
contribution's job maps to a DAA score at most the cut-off, shift the
front into the result.  Returns the drained shares (in insertion order)
and the remaining window. -/
def getSharesSinceLastAllocation (env : Env) (shareWindow : List Contribution)
    (daaScore : Nat) : List Contribution × List Contribution :=
  match shareWindow with
  | [] => ([], [])
  | c :: rest =>
    if getDaaScoreFromJobId env c.jobId ≤ daaScore then
      let r := getSharesSinceLastAllocation env rest daaScore
      (c :: r.1, r.2)
    else ([], c :: rest)

/-- Environment for the C4 counterexample: jobs "a", "b", "c" carry DAA
scores 5, 20 and 3. -/
def c4Env : Env :=
  { calculateTarget := fun _ => 0
    getPoW := fun _ => none
    getHash := fun _ => none
    rewardMapping := fun id => if id = "a" then some 5 else
      if id = "b" then some 20 else if id = "c" then some 3 else none
    submitOk := false }

/-- Share-window contents for the C4 counterexample. -/
def c4Window : List Contribution :=
  [⟨"addr", "w1", 100, 0, "a", 5⟩, ⟨"addr", "w1", 100, 1, "b", 20⟩,
   ⟨"addr", "w1", 100, 2, "c", 3⟩]

/-- C4 counterexample: with cut-off 10 the drain removes only the first
contribution (job "a", score 5) and leaves [job "b" (20), job "c" (3)] in
the window; the leftover job "c" has DAA score 3 ≤ 10, so the window does
NOT contain only elements whose daaScore exceeds the cut-off — the while
loop stops at the first element above it. -/
theorem drain_leaves_low_score_element :
    (getSharesSinceLastAllocation c4Env c4Window 10).1 = [⟨"addr", "w1", 100, 0, "a", 5⟩] ∧
    (getSharesSinceLastAllocation c4Env c4Window 10).2 =
      [⟨"addr", "w1", 100, 1, "b", 20⟩, ⟨"addr", "w1", 100, 2, "c", 3⟩] ∧
    ¬ (∀ c ∈ (getSharesSinceLastAllocation c4Env c4Window 10).2,
        10 < getDaaScoreFromJobId c4Env c.jobId) := by
  refine ⟨by decide, by decide, ?_⟩
  intro hall
  have := hall ⟨"addr", "w1", 100, 2, "c", 3⟩ (by decide)
  simp [getDaaScoreFromJobId, c4Env] at this

/-- C4 amended: the drain removes and returns exactly the maximal prefix
of the window, in insertion (FIFO) order, whose jobs' DAA scores are
≤ the cut-off; afterwards the head of the remaining window (if any) has
daaScore above the cut-off, but deeper elements may still be ≤ it, since
the while loop stops at the first element above the cut-off. -/
theorem drain_maximal_initial_segment (env : Env) (w : List Contribution) (cutoff : Nat)
    (c : Contribution) :
    (getSharesSinceLastAllocation env w cutoff).1 =
      w.takeWhile (fun x => decide (getDaaScoreFromJobId env x.jobId ≤ cutoff)) ∧
    (getSharesSinceLastAllocation env w cutoff).2 =
      w.dropWhile (fun x => decide (getDaaScoreFromJobId env x.jobId ≤ cutoff)) ∧
    w = (getSharesSinceLastAllocation env w cutoff).1 ++
      (getSharesSinceLastAllocation env w cutoff).2 ∧
    (c ∈ (getSharesSinceLastAllocation env w cutoff).1 →
      getDaaScoreFromJobId env c.jobId ≤ cutoff) ∧
    ((getSharesSinceLastAllocation env w cutoff).2.head? = some c →
      cutoff < getDaaScoreFromJobId env c.jobId) := by
  induction w with
  | nil =>
    refine ⟨rfl, rfl, rfl, by intro h; simp [getSharesSinceLastAllocation] at h,
      by intro h; simp [getSharesSinceLastAllocation] at h⟩
  | cons a rest ih =>
    by_cases ha : getDaaScoreFromJobId env a.jobId ≤ cutoff
    · refine ⟨?_, ?_, ?_, ?_, ?_⟩
      · simp [getSharesSinceLastAllocation, List.takeWhile_cons, ha, ih.1]
      · simp [getSharesSinceLastAllocation, List.dropWhile_cons, ha, ih.2.1]
      · simp only [getSharesSinceLastAllocation, if_pos ha]
        simpa using ih.2.2.1
      · intro hc
        simp only [getSharesSinceLastAllocation, if_pos ha] at hc
        rcases List.mem_cons.mp hc with h | h
        · exact h ▸ ha
        · exact ih.2.2.2.1 h
      · intro hc
        simp only [getSharesSinceLastAllocation, if_pos ha] at hc
        exact ih.2.2.2.2 hc
    · refine ⟨?_, ?_, ?_, ?_, ?_⟩
      · simp [getSharesSinceLastAllocation, List.takeWhile_cons, ha]
      · simp [getSharesSinceLastAllocation, List.dropWhile_cons, ha]
      · simp [getSharesSinceLastAllocation, if_neg ha]
      · intro hc
        simp [getSharesSinceLastAllocation, if_neg ha] at hc
      · intro hc
        simp only [getSharesSinceLastAllocation, if_neg ha, List.head?_cons,
          Option.some.injEq] at hc
        subst hc
        exact lt_of_not_le ha

/-- Witness for the amended C4 theorem on the concrete window. -/
theorem drain_maximal_initial_segment_witness :
    ((getSharesSinceLastAllocation c4Env c4Window 10).1 =
      c4Window.takeWhile (fun x => decide (getDaaScoreFromJobId c4Env x.jobId ≤ 10))) ∧
    (⟨"addr", "w1", 100, 0, "a", 5⟩ ∈ (getSharesSinceLastAllocation c4Env c4Window 10).1 →
      getDaaScoreFromJobId c4Env (⟨"addr", "w1", 100, 0, "a", 5⟩ : Contribution).jobId ≤ 10) :=
  ⟨(drain_maximal_initial_segment c4Env c4Window 10 ⟨"addr", "w1", 100, 0, "a", 5⟩).1,
   (drain_maximal_initial_segment c4Env c4Window 10 ⟨"addr", "w1", 100, 0, "a", 5⟩).2.2.2.1⟩

/-- Socket state as seen by the shares manager: the names of the workers
bound to the socket. -/
structure SocketM where
  workers : List String
deriving DecidableEq, Repr

/-- Element of `recentShares` in the src/src/stratum/sharesManager.ts
variant: `{ timestamp, difficulty }` (no nonce). -/
structure RecentShareN where
  timestamp : ℚ
  difficulty : ℚ
deriving DecidableEq, Repr

/-- WorkerStats of src/src/stratum/sharesManager.ts (lines 25-42). -/
structure WorkerStatsN where
  blocksFound : Nat
  sharesFound : Nat
  sharesDiff : ℚ
  staleShares : Nat
  invalidShares : Nat
  workerName : String
  startTime : ℚ
  lastShare : ℚ
  varDiffStartTime : ℚ
  varDiffSharesFound : Nat
  varDiffWindow : Nat
  minDiff : ℚ
  recentShares : List RecentShareN
  hashrate : ℚ
  asicType : String
  varDiffEnabled : Bool
deriving DecidableEq, Repr

/-- MinerData of src/src/stratum/sharesManager.ts (lines 44-47): the
socket set and the per-worker stats map of one address. -/
structure MinerDataN where
  sockets : List SocketM
  workerStats : List (String × WorkerStatsN)
deriving DecidableEq, Repr

/-- JS `Map.set`: replace the entry in place when the key exists,
otherwise append it. -/
def setEntry {α : Type} (m : List (String × α)) (k : String) (v : α) :
    List (String × α) :=
  if (m.lookup k).isSome then
    m.map (fun p => if p.1 = k then (k, v) else p)
  else m ++ [(k, v)]

/-- Fresh WorkerStats record of the src/src variant
(src/src/stratum/sharesManager.ts, lines 115-147). -/
def freshWorkerStatsN (workerName : String) (now stratumInitDiff : ℚ)
    (port : Nat) : WorkerStatsN :=
  { blocksFound := 0
    sharesFound := 0
    sharesDiff := 0
    staleShares := 0
    invalidShares := 0
    workerName := workerName
    startTime := now
    lastShare := now
    varDiffStartTime := now
    varDiffSharesFound := 0
    varDiffWindow := 0
    minDiff := stratumInitDiff
    recentShares := []
    hashrate := 0
    asicType := ""
    varDiffEnabled := decide (port = 8888) }

/-- getOrCreateWorkerStats of src/src/stratum/sharesManager.ts (lines
94-150): an existing record is returned only when some socket of the
address still has the worker; an orphaned record is deleted and replaced
by a fresh one; a missing record is created. -/
def getOrCreateWorkerStatsN (now stratumInitDiff : ℚ) (port : Nat)
    (workerName : String) (md : MinerDataN) : WorkerStatsN × MinerDataN :=
  match md.workerStats.lookup workerName with
  | some existingStats =>
    if md.sockets.any (fun sk => sk.workers.contains workerName) then
      (existingStats, md)
    else
      let ws := freshWorkerStatsN workerName now stratumInitDiff port
      let cleaned := setEntry (md.workerStats.filter (fun p => p.1 ≠ workerName)) workerName ws
      (ws, { md with workerStats := cleaned })
  | none =>
    let ws := freshWorkerStatsN workerName now stratumInitDiff port
    (ws, { md with workerStats := setEntry md.workerStats workerName ws })

/-- Exit taken by the src/src addShare, which also has an unauthorized
path. -/
inductive ShareOutcomeSrc
  | unauthorized
  | duplicate
  | stale
  | invalid
  | accepted
deriving DecidableEq, Repr

/-- Result of one src/src addShare call: the miners map, the
nonce-keyed contributions map, the duplicate metric, the share window,
and the exit taken. -/
structure AddShareSrcResult where
  miners : List (String × MinerDataN)
  contributions : List (Nat × Contribution)
  duplicatedShares : Nat
  shareWindow : List Contribution
  outcome : ShareOutcomeSrc
deriving DecidableEq, Repr

/-- SharesManager.addShare of src/src/stratum/sharesManager.ts (lines
177-284).  A share from an `(address, minerId)` pair with no registered
MinerData or WorkerStats is rejected as unauthorized (lines 187-193)
before anything is touched.  The duplicate check consults the
nonce-keyed `contributions` map (line 196; the `set` that would populate
it, line 201, is commented out in the source).  The `if (!minerData)`
re-creation block at lines 205-211 is unreachable after the guard and is
therefore not modelled.  The remaining stale/invalid/credit paths mirror
the part_004 variant, with the mutated stats written back to the maps,
and `recentShares` entries carrying no nonce. -/
def addShareSrc (env : Env) (now stratumInitDiff : ℚ) (port : Nat)
    (minerId address hash : String) (difficulty : ℚ) (nonce : Nat) (id : String)
    (miners : List (String × MinerDataN)) (contributions : List (Nat × Contribution))
    (duplicatedShares : Nat) (shareWindow : List Contribution) : AddShareSrcResult :=
  match miners.lookup address with
  | none => ⟨miners, contributions, duplicatedShares, shareWindow,
      ShareOutcomeSrc.unauthorized⟩
  | some minerData =>
    if (minerData.workerStats.lookup minerId).isSome = false then
      ⟨miners, contributions, duplicatedShares, shareWindow, ShareOutcomeSrc.unauthorized⟩
    else if contributions.any (fun p => p.1 = nonce) then
      ⟨miners, contributions, duplicatedShares + 1, shareWindow, ShareOutcomeSrc.duplicate⟩
    else
      let resolved := getOrCreateWorkerStatsN now stratumInitDiff port minerId minerData
      let workerStats := resolved.1
      let minerData1 := resolved.2
      let currentDifficulty :=
        if workerStats.minDiff = 0 then difficulty else workerStats.minDiff
      match env.getPoW hash with
      | none =>
        let ws2 := { workerStats with staleShares := workerStats.staleShares + 1 }
        ⟨setEntry miners address
            { minerData1 with workerStats := setEntry minerData1.workerStats minerId ws2 },
          contributions, duplicatedShares, shareWindow, ShareOutcomeSrc.stale⟩
      | some state =>
        let work := state.checkWork nonce
        if work.2 ≤ env.calculateTarget currentDifficulty then
          let daaScore := getDaaScoreFromJobId env id
          let share : Contribution := ⟨address, minerId, difficulty, now, id, daaScore⟩
          let ws1 :=
            if work.1 && env.submitOk then
              { workerStats with blocksFound := workerStats.blocksFound + 1 }
            else workerStats
          let newRecent : RecentShareN := ⟨now, currentDifficulty⟩
          let ws2 := { ws1 with
            sharesFound := ws1.sharesFound + 1
            varDiffSharesFound := ws1.varDiffSharesFound + 1
            lastShare := now
            minDiff := currentDifficulty
            recentShares :=
              (ws1.recentShares ++ [newRecent]).dropWhile
                (fun s => decide (WINDOW_SIZE < now - s.timestamp)) }
          ⟨setEntry miners address
              { minerData1 with workerStats := setEntry minerData1.workerStats minerId ws2 },
            contributions, duplicatedShares, shareWindow ++ [share], ShareOutcomeSrc.accepted⟩
        else
          let ws2 := { workerStats with invalidShares := workerStats.invalidShares + 1 }
          ⟨setEntry miners address
              { minerData1 with workerStats := setEntry minerData1.workerStats minerId ws2 },
            contributions, duplicatedShares, shareWindow, ShareOutcomeSrc.invalid⟩

/-- C6: For every call to addShare with an (address, minerId) pair that
has no registered MinerData or WorkerStats, the share is rejected as
unauthorized and nothing is mutated: no per-worker counter (sharesFound,
staleShares, invalidShares, duplicate), and no new MinerData or
WorkerStats entry is created — the whole state is returned unchanged. -/
theorem addShareSrc_unauthorized_unchanged (env : Env) (now stratumInitDiff : ℚ)
    (port : Nat) (minerId address hash : String) (difficulty : ℚ) (nonce : Nat)
    (id : String) (miners : List (String × MinerDataN))
    (contributions : List (Nat × Contribution)) (dup : Nat) (win : List Contribution)
    (hunreg : ∀ md, miners.lookup address = some md →
      md.workerStats.lookup minerId = none) :
    addShareSrc env now stratumInitDiff port minerId address hash difficulty nonce id
        miners contributions dup win =
      ⟨miners, contributions, dup, win, ShareOutcomeSrc.unauthorized⟩ := by
  unfold addShareSrc
  cases hm : miners.lookup address with
  | none => rfl
  | some md =>
    have hws := hunreg md hm
    simp [hws]

/-- Witness for the C6 theorem: address kaspa:abc is registered with an
empty workerStats map, so a share from worker w1 leaves everything
unchanged. -/
theorem addShareSrc_unauthorized_unchanged_witness :
    (∀ md, ([("kaspa:abc", (⟨[], []⟩ : MinerDataN))].lookup "kaspa:abc" = some md →
      md.workerStats.lookup "w1" = none)) ∧
    addShareSrc c2Env 1000 2048 8888 "w1" "kaspa:abc" "h0" 2048 1234 "a1"
        [("kaspa:abc", ⟨[], []⟩)] [] 0 [] =
      ⟨[("kaspa:abc", ⟨[], []⟩)], [], 0, [], ShareOutcomeSrc.unauthorized⟩ := by
  have h : ∀ md, ([("kaspa:abc", (⟨[], []⟩ : MinerDataN))].lookup "kaspa:abc" = some md →
      md.workerStats.lookup "w1" = none) := by
    intro md hmd
    simp [List.lookup] at hmd
    subst hmd
    rfl
  exact ⟨h, addShareSrc_unauthorized_unchanged c2Env 1000 2048 8888 "w1" "kaspa:abc" "h0"
    2048 1234 "a1" [("kaspa:abc", ⟨[], []⟩)] [] 0 [] h⟩

/-- Stratum.onMessage, case mining.authorize (src/unnamed/part_007,
lines 475-575), restricted to the validation and registration of the
worker name on the socket.  `params[0]` is split on '.' into `address`
and `name` (modelled as pre-split inputs, with a missing worker part
arriving as the empty string, which is falsy like JS undefined): the
address must validate, the worker name must be nonempty, and a worker
name already present in the socket's worker map throws a plain JS Error
`Worker with duplicate name: <name>` (lines 502-504); otherwise the name
is added to the socket's worker map.  The user-difficulty negotiation on
port 8888 and the set_extranonce/set_difficulty events do not affect
which error is thrown and are not modelled here. -/
def authorize (validateAddress : String → Bool) (sockWorkers : List String)
    (address name : String) : Except Thrown (List String) :=
  if ¬ validateAddress address then
    Except.error (Thrown.plainErr ("Invalid address, parsed address: " ++ address))
  else if name = "" then
    Except.error (Thrown.plainErr ("Worker name is not set. " ++ address ++ "." ++ name))
  else if sockWorkers.contains name then
    Except.error (Thrown.plainErr ("Worker with duplicate name: " ++ name))
  else
    Except.ok (sockWorkers ++ [name])

/-- One mining.authorize as seen on the wire, composing the handler with
the server's catch mapping (Server.onData, src/src/stratum/server/index.ts
lines 126-186): on success the response is true with no error; a thrown
error is mapped by `mapCaughtError`.  Returns the response, the socket's
worker list, and whether the socket was ended. -/
def handleAuthorize (validateAddress : String → Bool) (sockWorkers : List String)
    (address name : String) : StratumResponse × List String × Bool :=
  match authorize validateAddress sockWorkers address name with
  | Except.ok ws => (⟨true, none⟩, ws, false)
  | Except.error e =>
    let m := mapCaughtError e
    (m.1, sockWorkers, m.2)

/-- C7 counterexample: authorizing kaspa:abc.w1 twice on one socket: the
first succeeds and registers w1; the second fails, but the wire error
carries code 20 (the plain duplicate-name Error keeps the initial
`unknown` code) and the socket is ended — not the claimed code 24. -/
theorem authorize_duplicate_code_20 :
    handleAuthorize (fun _ => true) [] "kaspa:abc" "w1" = (⟨true, none⟩, ["w1"], false) ∧
    (handleAuthorize (fun _ => true) ["w1"] "kaspa:abc" "w1").1.error =
      some (20, "Worker with duplicate name: w1") ∧
    ((handleAuthorize (fun _ => true) ["w1"] "kaspa:abc" "w1").1.error.map Prod.fst ≠
      some 24) ∧
    (handleAuthorize (fun _ => true) ["w1"] "kaspa:abc" "w1").2.2 = true := by
  refine ⟨?_, ?_, ?_, ?_⟩ <;> decide

/-- C7 amended: for every socket, a second mining.authorize for an
address.worker whose worker name is already registered on that same
socket fails, but the wire error sent back carries code 20 (unknown)
with the duplicate-name message, and the server ends the socket; error
code 24 (unauthorized-worker) is never produced on this path, because
the handler throws a plain Error rather than a StratumError. -/
theorem authorize_duplicate_amended (validateAddress : String → Bool)
    (sockWorkers : List String) (address name : String)
    (haddr : validateAddress address = true)
    (hname : name ≠ "")
    (hdup : sockWorkers.contains name = true) :
    authorize validateAddress sockWorkers address name =
      Except.error (Thrown.plainErr ("Worker with duplicate name: " ++ name)) ∧
    handleAuthorize validateAddress sockWorkers address name =
      (⟨false, some (20, "Worker with duplicate name: " ++ name)⟩, sockWorkers, true) := by
  have hauth : authorize validateAddress sockWorkers address name =
      Except.error (Thrown.plainErr ("Worker with duplicate name: " ++ name)) := by
    unfold authorize
    simp [haddr, hname, hdup]
    exact List.mem_of_elem_eq_true hdup
  exact ⟨hauth, by simp [handleAuthorize, hauth, mapCaughtError]⟩

/-- Witness for the amended C7 theorem on the concrete request
kaspa:abc.w1 with w1 already registered. -/
theorem authorize_duplicate_amended_witness :
    ((fun (_ : String) => true) "kaspa:abc" = true) ∧
    (("w1" : String) ≠ "") ∧
    (["w1"].contains "w1" = true) ∧
    handleAuthorize (fun _ => true) ["w1"] "kaspa:abc" "w1" =
      (⟨false, some (20, "Worker with duplicate name: w1")⟩, ["w1"], true) :=
  ⟨rfl, by decide, by decide,
    (authorize_duplicate_amended (fun _ => true) ["w1"] "kaspa:abc" "w1" rfl (by decide)
      (by decide)).2⟩

/-- MAX_ELAPSED_MS (src/unnamed/part_004, line 410): 5 minutes. -/
def MAX_ELAPSED_MS : ℚ := 5 * 60 * 1000

/-- JS `Math.round`: floor of x + 1/2 (round half up). -/
def jsRound (q : ℚ) : ℤ := ⌊q + 1 / 2⌋

/-- Per-worker difficulty of the fallback snapshot
(SharesManager.getDifficultyAndTimeSinceLastAllocation,
src/unnamed/part_004 lines 400-429): scale minDiff by the ramp-up weight
min(timeSinceLastShare, 5 min)/5 min, round; when that rounds to 0, fall
back to max(1, floor(minDiff * 0.1)). -/
def scaledDifficulty (minDiff timeSinceLastShare : ℚ) : ℤ :=
  let cappedTime := min timeSinceLastShare MAX_ELAPSED_MS
  let timeWeight := cappedTime / MAX_ELAPSED_MS
  let rawDifficulty := jsRound (minDiff * timeWeight)
  if rawDifficulty = 0 then max 1 ⌊minDiff * (1 / 10)⌋ else rawDifficulty

/-- SharesManager.getDifficultyAndTimeSinceLastAllocation
(src/unnamed/part_004, lines 379-447): for every worker of every address
(skipping workers with an empty name and workers whose lastShare lies in
the future) produce one synthetic Contribution whose difficulty is
`scaledDifficulty` and whose timestamp is the capped elapsed time, with
an empty jobId and daaScore 0. -/
def getDifficultyAndTimeSinceLastAllocation (now : ℚ)
    (miners : List (String × List WorkerStats)) : List Contribution :=
  miners.bind (fun p =>
    p.2.bind (fun ws =>
      if ws.workerName = "" then []
      else if now - ws.lastShare < 0 then []
      else
        [⟨p.1, ws.workerName, ((scaledDifficulty ws.minDiff (now - ws.lastShare) : ℤ) : ℚ),
          min (now - ws.lastShare) MAX_ELAPSED_MS, "", 0⟩]))

/-- Modelled from the spec: one synthetic Contribution weighted by
min(elapsedSinceLastShare, 5 min)/5 min times worker.minDiff, with a
floor of max(1, minDiff/10) when that product rounds to zero. -/
def specSnapshotDifficulty (minDiff elapsed : ℚ) : ℤ :=
  if jsRound (minDiff * (min elapsed (5 * 60 * 1000) / (5 * 60 * 1000))) = 0 then
    max 1 ⌊minDiff / 10⌋
  else jsRound (minDiff * (min elapsed (5 * 60 * 1000) / (5 * 60 * 1000)))

/-- C8: every synthetic Contribution of the fallback snapshot carries
the difficulty minDiff weighted by min(elapsed, 5 min)/5 min rounded to
an integer, replaced by max(1, floor(minDiff/10)) whenever that product
rounds to zero; the result equals the spec's formula, is never zero, and
is at least 1 for the nonnegative minDiff and elapsed that occur in the
snapshot. -/
theorem fallback_snapshot_difficulty (minDiff elapsed now : ℚ)
    (miners : List (String × List WorkerStats)) (c : Contribution) :
    (scaledDifficulty minDiff elapsed = specSnapshotDifficulty minDiff elapsed) ∧
    (scaledDifficulty minDiff elapsed ≠ 0) ∧
    (0 ≤ minDiff → 0 ≤ elapsed → 1 ≤ scaledDifficulty minDiff elapsed) ∧
    (c ∈ getDifficultyAndTimeSinceLastAllocation now miners →
      ∃ p, p ∈ miners ∧ ∃ ws, ws ∈ p.2 ∧ 0 ≤ now - ws.lastShare ∧
        c.difficulty = ((scaledDifficulty ws.minDiff (now - ws.lastShare) : ℤ) : ℚ)) := by
  have heq : scaledDifficulty minDiff elapsed = specSnapshotDifficulty minDiff elapsed := by
    unfold scaledDifficulty specSnapshotDifficulty MAX_ELAPSED_MS
    norm_num [mul_one_div]
  have hne : scaledDifficulty minDiff elapsed ≠ 0 := by
    unfold scaledDifficulty
    dsimp only
    split
    · intro hc
      have h1 : (1 : ℤ) ≤ max 1 ⌊minDiff * (1 / 10)⌋ := le_max_left _ _
      omega
    · assumption
  have hpos : 0 ≤ minDiff → 0 ≤ elapsed → 1 ≤ scaledDifficulty minDiff elapsed := by
    intro hm he
    unfold scaledDifficulty
    dsimp only
    split
    · exact le_max_left _ _
    · rename_i hraw
      have hw : 0 ≤ min elapsed MAX_ELAPSED_MS / MAX_ELAPSED_MS := by
        apply div_nonneg
        · exact le_min he (by norm_num [MAX_ELAPSED_MS])
        · norm_num [MAX_ELAPSED_MS]
      have hprod : 0 ≤ minDiff * (min elapsed MAX_ELAPSED_MS / MAX_ELAPSED_MS) :=
        mul_nonneg hm hw
      have h0 : (0 : ℤ) ≤ jsRound (minDiff * (min elapsed MAX_ELAPSED_MS / MAX_ELAPSED_MS)) := by
        unfold jsRound
        apply Int.floor_nonneg.mpr
        linarith
      omega
  refine ⟨heq, hne, hpos, ?_⟩
  intro hc
  unfold getDifficultyAndTimeSinceLastAllocation at hc
  rcases List.mem_bind.mp hc with ⟨p, hp, hcp⟩
  rcases List.mem_bind.mp hcp with ⟨ws, hws, hcw⟩
  refine ⟨p, hp, ws, hws, ?_, ?_⟩
  · by_cases h1 : ws.workerName = ""
    · simp [h1] at hcw
    · by_cases h2 : now - ws.lastShare < 0
      · simp [h1, h2] at hcw
      · linarith [not_lt.mp h2]
  · by_cases h1 : ws.workerName = ""
    · simp [h1] at hcw
    · by_cases h2 : now - ws.lastShare < 0
      · simp [h1, h2] at hcw
      · simp [h1, h2] at hcw
        subst hcw
        rfl

/-- Witness for the C8 theorem at minDiff 2048 and one minute elapsed. -/
theorem fallback_snapshot_difficulty_witness :
    ((0 : ℚ) ≤ 2048) ∧ ((0 : ℚ) ≤ 60000) ∧
    scaledDifficulty 2048 60000 = specSnapshotDifficulty 2048 60000 ∧
    scaledDifficulty 2048 60000 ≠ 0 ∧
    1 ≤ scaledDifficulty 2048 60000 :=
  have t := fallback_snapshot_difficulty 2048 60000 0 [] ⟨"", "", 0, 0, "", 0⟩
  ⟨by norm_num, by norm_num, t.1, t.2.1, t.2.2.1 (by norm_num) (by norm_num)⟩

/-- Worker identity as carried on a socket: payout address and login
name. -/
structure Worker where
  address : String
  name : String
deriving DecidableEq, Repr

/-- Messages written to a socket during a template fan-out. -/
inductive StratumMsg
  | setDifficulty (difficulty : ℚ)
  | notify (task : String)
deriving DecidableEq, Repr

/-- Per-worker decision of the announceTemplate loop
(src/unnamed/part_007, lines 327-349): when vardiff is on for the
stratum, the worker's stats (when found) have vardiff enabled, and the
target difficulty from `getClientVardiff` differs from the socket's
current difficulty and is nonzero, the new difficulty is applied (and a
`mining.set_difficulty` event written); otherwise nothing is emitted.
`statsOf` models the worker-stats lookup. -/
def vardiffEmit (varDiffFlag : Bool) (statsOf : Worker → Option WorkerStats)
    (getClientVardiff : Worker → ℚ) (w : Worker) (socketDifficulty : ℚ) : Option ℚ :=
  if varDiffFlag then
    let check := match statsOf w with
      | some st => st.varDiffEnabled
      | none => true
    if check then
      let vd := getClientVardiff w
      if vd ≠ socketDifficulty ∧ vd ≠ 0 then some vd else none
    else none
  else none

/-- Per-socket worker loop of Stratum.announceTemplate
(src/unnamed/part_007, lines 326-352): walk the socket's workers in
order; each emitting worker updates the socket difficulty
(updateSocketDifficulty) and writes a set_difficulty event
(reflectDifficulty).  Returns the written events and the socket's final
difficulty. -/
def announceWorkers (varDiffFlag : Bool) (statsOf : Worker → Option WorkerStats)
    (getClientVardiff : Worker → ℚ) (workers : List Worker)
    (socketDifficulty : ℚ) : List StratumMsg × ℚ :=
  match workers with
  | [] => ([], socketDifficulty)
  | w :: rest =>
    match vardiffEmit varDiffFlag statsOf getClientVardiff w socketDifficulty with
    | some vd =>
      let r := announceWorkers varDiffFlag statsOf getClientVardiff rest vd
      (StratumMsg.setDifficulty vd :: r.1, r.2)
    | none => announceWorkers varDiffFlag statsOf getClientVardiff rest socketDifficulty

/-- Stratum.announceTemplate for one open subscribed socket
(src/unnamed/part_007, lines 309-355): after the worker loop, the
encoded job line (`mining.notify`) is written. -/
def announceTemplate (varDiffFlag : Bool) (statsOf : Worker → Option WorkerStats)
    (getClientVardiff : Worker → ℚ) (workers : List Worker)
    (socketDifficulty : ℚ) (task : String) : List StratumMsg × ℚ :=
  let r := announceWorkers varDiffFlag statsOf getClientVardiff workers socketDifficulty
  (r.1 ++ [StratumMsg.notify task], r.2)

/-- Helper: the worker loop only ever writes set_difficulty events. -/
theorem announceWorkers_all_setDifficulty (varDiffFlag : Bool)
    (statsOf : Worker → Option WorkerStats) (getClientVardiff : Worker → ℚ)
    (workers : List Worker) (socketDifficulty : ℚ) (m : StratumMsg)
    (hm : m ∈ (announceWorkers varDiffFlag statsOf getClientVardiff workers
      socketDifficulty).1) : ∃ d, m = StratumMsg.setDifficulty d := by
  induction workers generalizing socketDifficulty with
  | nil => simp [announceWorkers] at hm
  | cons w rest ih =>
    unfold announceWorkers at hm
    cases hvd : vardiffEmit varDiffFlag statsOf getClientVardiff w socketDifficulty with
    | some vd =>
      rw [hvd] at hm
      rcases List.mem_cons.mp hm with h | h
      · exact ⟨_, h⟩
      · exact ih _ h
    | none =>
      rw [hvd] at hm
      exact ih _ hm

/-- Helper: when the worker loop ends at a different socket difficulty
than it started with, it wrote at least one event. -/
theorem announceWorkers_changed_nonempty (varDiffFlag : Bool)
    (statsOf : Worker → Option WorkerStats) (getClientVardiff : Worker → ℚ)
    (workers : List Worker) (socketDifficulty : ℚ)
    (hch : (announceWorkers varDiffFlag statsOf getClientVardiff workers
      socketDifficulty).2 ≠ socketDifficulty) :
    (announceWorkers varDiffFlag statsOf getClientVardiff workers
      socketDifficulty).1 ≠ [] := by
  induction workers generalizing socketDifficulty with
  | nil => simp [announceWorkers] at hch
  | cons w rest ih =>
    unfold announceWorkers at hch ⊢
    cases hvd : vardiffEmit varDiffFlag statsOf getClientVardiff w socketDifficulty with
    | some vd => simp
    | none =>
      rw [hvd] at hch
      exact ih _ hch

/-- C9: On every template fan-out, for every subscribed socket, every
`mining.set_difficulty` event is written before the `mining.notify` line
carrying the job: the written sequence is a list of set_difficulty
events followed by exactly the notify line; and whenever the socket's
vardiff difficulty changed during the fan-out, at least one
set_difficulty precedes the notify.  The job line is never written ahead
of a pending difficulty change. -/
theorem announceTemplate_set_difficulty_before_notify (varDiffFlag : Bool)
    (statsOf : Worker → Option WorkerStats) (getClientVardiff : Worker → ℚ)
    (workers : List Worker) (socketDifficulty : ℚ) (task : String) :
    (announceTemplate varDiffFlag statsOf getClientVardiff workers socketDifficulty
        task).1 =
      (announceWorkers varDiffFlag statsOf getClientVardiff workers
        socketDifficulty).1 ++ [StratumMsg.notify task] ∧
    (∀ m ∈ (announceWorkers varDiffFlag statsOf getClientVardiff workers
        socketDifficulty).1, ∃ d, m = StratumMsg.setDifficulty d) ∧
    ((announceTemplate varDiffFlag statsOf getClientVardiff workers socketDifficulty
        task).2 ≠ socketDifficulty →
      (announceWorkers varDiffFlag statsOf getClientVardiff workers
        socketDifficulty).1 ≠ []) :=
  ⟨rfl,
   fun m hm => announceWorkers_all_setDifficulty varDiffFlag statsOf getClientVardiff
     workers socketDifficulty m hm,
   fun hch => announceWorkers_changed_nonempty varDiffFlag statsOf getClientVardiff
     workers socketDifficulty hch⟩

/-- Witness for the C9 theorem: one worker whose vardiff target 4096
differs from the socket difficulty 2048 — a set_difficulty is written,
then the notify. -/
theorem announceTemplate_witness :
    announceTemplate true (fun _ => none) (fun _ => 4096) [⟨"kaspa:abc", "w1"⟩] 2048
        "job" =
      ([StratumMsg.setDifficulty 4096, StratumMsg.notify "job"], 4096) ∧
    ((announceTemplate true (fun _ => none) (fun _ => 4096) [⟨"kaspa:abc", "w1"⟩] 2048
        "job").2 ≠ 2048 →
      (announceWorkers true (fun _ => none) (fun _ => 4096) [⟨"kaspa:abc", "w1"⟩]
        2048).1 ≠ []) :=
  ⟨by decide,
   (announceTemplate_set_difficulty_before_notify true (fun _ => none) (fun _ => 4096)
     [⟨"kaspa:abc", "w1"⟩] 2048 "job").2.2⟩

/-- The vardiff windows array `[1, 3, 10, 30, 60, 240, 0]` (minutes) of
startVardiffThread (src/unnamed/part_003, line 69), read at
`windows[varDiffWindow % 7]`; indices past 6 are unreachable and map to
the final-stage value 0. -/
def windowAt : Nat → ℚ
  | 0 => 1
  | 1 => 3
  | 2 => 10
  | 3 => 30
  | 4 => 60
  | 5 => 240
  | _ => 0

/-- The vardiff tolerances array `[1, 0.5, 0.25, 0.15, 0.1, 0.1, 0.1]`
(src/unnamed/part_003, line 70). -/
def toleranceAt : Nat → ℚ
  | 0 => 1
  | 1 => 1 / 2
  | 2 => 1 / 4
  | 3 => 3 / 20
  | _ => 1 / 10

/-- SharesManager.checkWorkerStatus (src/unnamed/part_004, lines
449-451): seconds of the last share when it lies inside WINDOW_SIZE,
else 0. -/
def checkWorkerStatus (now : ℚ) (s : WorkerStats) : ℤ :=
  if now - s.lastShare ≤ WINDOW_SIZE then ⌊s.lastShare / 1000⌋ else 0

/-- Outcome of the cleared-windows for-loop: the (possibly mutated)
stats, the loop counter at exit, and whether the loop broke early. -/
structure ClearedLoopResult where
  stats : WorkerStats
  i : Nat
  broke : Bool
deriving DecidableEq, Repr

/-- Body of the cleared-windows for-loop of startVardiffThread
(src/unnamed/part_003, lines 146-157), encoded with explicit fuel: the
source loop `for (let i = 1; i <= windowIndex;)` runs at most
`windowIndex + 1 - i` more iterations from counter i, and that count is
the structural fuel here (the wrapper below supplies it).  While fuel
remains — that is, while i ≤ windowIndex — a breach of tolerances[i]
applies updateVarDiff(diff * shareRateRatio) and breaks; otherwise i is
incremented.  `q` is the local shareRateRatio, `diff` the minDiff read
before the loop. -/
def clearedWindowsLoopGo (cfg : VardiffCfg) (clamp : Bool) (diff q : ℚ) :
    Nat → Nat → WorkerStats → ClearedLoopResult
  | 0, i, s => ⟨s, i, false⟩
  | fuel + 1, i, s =>
    if |1 - q| ≥ toleranceAt i then
      ⟨updateVarDiff cfg s (diff * q) clamp, i, true⟩
    else clearedWindowsLoopGo cfg clamp diff q fuel (i + 1) s

/-- The cleared-windows loop from counter i: runs
`clearedWindowsLoopGo` with the remaining iteration count
`windowIndex + 1 - i` as fuel. -/
def clearedWindowsLoop (cfg : VardiffCfg) (clamp : Bool) (diff q : ℚ)
    (windowIndex i : Nat) (s : WorkerStats) : ClearedLoopResult :=
  clearedWindowsLoopGo cfg clamp diff q (windowIndex + 1 - i) i s

/-- The part of the per-worker vardiff cycle after the final-stage check
(src/unnamed/part_003, lines 145-183): the cleared-windows loop from
i = 1, the post-loop guard `if (i < varDiffWindow) continue` (which
reads the possibly-reset varDiffWindow of the mutated stats), the
current-window upper check, and the window-completion check that either
lowers the difficulty or promotes `varDiffWindow`.  The locals
diff/shares/duration/window/tolerance and the shareRateRatio `q` are
passed in as computed before the loop. -/
def vardiffLoopRegion (cfg : VardiffCfg) (expectedShareRate : ℚ) (clamp : Bool)
    (diff q shares duration window tolerance : ℚ) (windowIndex : Nat)
    (s : WorkerStats) : WorkerStats :=
  let r := clearedWindowsLoop cfg clamp diff q windowIndex 1 s
  if r.i < r.stats.varDiffWindow then r.stats
  else if window * expectedShareRate * (1 + tolerance) ≤ shares then
    updateVarDiff cfg r.stats (diff * q) clamp
  else if window ≤ duration then
    if shares ≤ window * expectedShareRate * (1 - tolerance) then
      updateVarDiff cfg r.stats (diff * max q (1 / 10)) clamp
    else { r.stats with varDiffWindow := r.stats.varDiffWindow + 1 }
  else r.stats

/-- One per-worker iteration of the vardiff cycle
(src/unnamed/part_003, lines 92-184): skip workers with an empty name,
with vardiff disabled, inactive, or with the epoch-zero sentinel
(`zeroDateMillS = 0`) in varDiffStartTime; otherwise compute the locals
diff/shares/duration/shareRate/shareRateRatio/windowIndex, run the
final-stage check when the window length is 0, and otherwise the
cleared-windows loop region (`vardiffLoopRegion`).  Rational division by
zero yields 0, where JS would give Infinity or NaN; the varDiffWindow
bound proved below holds on every branch, so it does not depend on that
difference. -/
def vardiffWorkerStep (cfg : VardiffCfg) (expectedShareRate : ℚ) (clamp : Bool)
    (now : ℚ) (s : WorkerStats) : WorkerStats :=
  if s.workerName = "" then s
  else if ¬ s.varDiffEnabled then s
  else if checkWorkerStatus now s = 0 then s
  else if s.varDiffStartTime = 0 then s
  else
    let diff := s.minDiff
    let shares : ℚ := (s.varDiffSharesFound : ℚ)
    let duration := (now - s.varDiffStartTime) / 60000
    let shareRate := shares / duration
    let q := shareRate / expectedShareRate
    let windowIndex := s.varDiffWindow % 7
    let window := windowAt windowIndex
    let tolerance := toleranceAt windowIndex
    if window = 0 then
      if |1 - q| ≥ tolerance then updateVarDiff cfg s (diff * q) clamp else s
    else
      vardiffLoopRegion cfg expectedShareRate clamp diff q shares duration window
        tolerance windowIndex s

/-- Helper: updateVarDiff either resets varDiffWindow to 0 or leaves it
unchanged. -/
theorem updateVarDiff_varDiffWindow_le (cfg : VardiffCfg) (s : WorkerStats)
    (a : ℚ) (c : Bool) :
    (updateVarDiff cfg s a c).varDiffWindow ≤ s.varDiffWindow := by
  unfold updateVarDiff
  dsimp only
  split <;> split <;> split <;> first | exact Nat.zero_le _ | exact le_refl _

/-- Helper: behaviour of the fuel-indexed loop body: either it runs out
of fuel with untouched stats and counter i + fuel, or it breaks at some
counter below i + fuel having applied exactly one updateVarDiff. -/
theorem clearedWindowsLoopGo_spec (cfg : VardiffCfg) (clamp : Bool) (diff q : ℚ) :
    ∀ (fuel i : Nat) (s : WorkerStats),
    (clearedWindowsLoopGo cfg clamp diff q fuel i s = ⟨s, i + fuel, false⟩) ∨
    ((clearedWindowsLoopGo cfg clamp diff q fuel i s).stats =
        updateVarDiff cfg s (diff * q) clamp ∧
      (clearedWindowsLoopGo cfg clamp diff q fuel i s).broke = true ∧
      i ≤ (clearedWindowsLoopGo cfg clamp diff q fuel i s).i ∧
      (clearedWindowsLoopGo cfg clamp diff q fuel i s).i + 1 ≤ i + fuel) := by
  intro fuel
  induction fuel with
  | zero => intro i s; left; rfl
  | succ n ih =>
    intro i s
    by_cases htol : |1 - q| ≥ toleranceAt i
    · right
      have hgo : clearedWindowsLoopGo cfg clamp diff q (n + 1) i s =
          ⟨updateVarDiff cfg s (diff * q) clamp, i, true⟩ := by
        simp only [clearedWindowsLoopGo, if_pos htol]
      rw [hgo]
      exact ⟨rfl, rfl, le_refl _, show i + 1 ≤ i + (n + 1) by omega⟩
    · have hgo : clearedWindowsLoopGo cfg clamp diff q (n + 1) i s =
          clearedWindowsLoopGo cfg clamp diff q n (i + 1) s := by
        simp only [clearedWindowsLoopGo, if_neg htol]
      rw [hgo]
      rcases ih (i + 1) s with h1 | h2
      · left
        rw [h1]
        congr 1
        omega
      · exact Or.inr ⟨h2.1, h2.2.1, by omega, by omega⟩

/-- Helper: the cleared-windows loop either runs to completion (no
break: stats untouched, counter at max i (windowIndex + 1)) or breaks at
some i ≤ windowIndex having applied exactly one updateVarDiff. -/
theorem clearedWindowsLoop_spec (cfg : VardiffCfg) (clamp : Bool) (diff q : ℚ)
    (windowIndex i : Nat) (s : WorkerStats) :
    (clearedWindowsLoop cfg clamp diff q windowIndex i s =
      ⟨s, max i (windowIndex + 1), false⟩) ∨
    ((clearedWindowsLoop cfg clamp diff q windowIndex i s).stats =
        updateVarDiff cfg s (diff * q) clamp ∧
      (clearedWindowsLoop cfg clamp diff q windowIndex i s).broke = true ∧
      i ≤ (clearedWindowsLoop cfg clamp diff q windowIndex i s).i ∧
      (clearedWindowsLoop cfg clamp diff q windowIndex i s).i ≤ windowIndex) := by
  unfold clearedWindowsLoop
  rcases clearedWindowsLoopGo_spec cfg clamp diff q (windowIndex + 1 - i) i s with h1 | h2
  · left
    rw [h1]
    congr 1
    omega
  · by_cases hfuel : i ≤ windowIndex
    · exact Or.inr ⟨h2.1, h2.2.1, h2.2.2.1, by omega⟩
    · have : windowIndex + 1 - i = 0 := by omega
      rw [this] at h2
      have hbroke := h2.2.1
      simp [clearedWindowsLoopGo] at hbroke

/-- Helper: the cleared-windows loop never increases varDiffWindow. -/
theorem clearedWindowsLoop_window_le (cfg : VardiffCfg) (clamp : Bool) (diff q : ℚ)
    (windowIndex i : Nat) (s : WorkerStats) :
    (clearedWindowsLoop cfg clamp diff q windowIndex i s).stats.varDiffWindow ≤
      s.varDiffWindow := by
  rcases clearedWindowsLoop_spec cfg clamp diff q windowIndex i s with h1 | h2
  · rw [h1]
  · rw [h2.1]
    exact updateVarDiff_varDiffWindow_le cfg s (diff * q) clamp

/-- Helper: a window length of zero only occurs at index 6 and beyond. -/
theorem windowAt_ne_zero_le_five (k : Nat) (hk : k ≤ 6) (hnz : windowAt k ≠ 0) :
    k ≤ 5 := by
  interval_cases k <;> simp_all [windowAt]

/-- Helper: the loop region keeps varDiffWindow within the bound when
the worker entered it at stage index at most 5. -/
theorem vardiffLoopRegion_bound (cfg : VardiffCfg) (expectedShareRate : ℚ)
    (clamp : Bool) (diff q shares duration window tolerance : ℚ)
    (windowIndex : Nat) (s : WorkerStats) (h5 : s.varDiffWindow ≤ 5) :
    (vardiffLoopRegion cfg expectedShareRate clamp diff q shares duration window
      tolerance windowIndex s).varDiffWindow ≤ 6 := by
  unfold vardiffLoopRegion
  dsimp only
  split
  · exact le_trans (clearedWindowsLoop_window_le _ _ _ _ _ _ _) (by omega)
  split
  · exact le_trans (updateVarDiff_varDiffWindow_le _ _ _ _)
      (le_trans (clearedWindowsLoop_window_le _ _ _ _ _ _ _) (by omega))
  split
  · split
    · exact le_trans (updateVarDiff_varDiffWindow_le _ _ _ _)
        (le_trans (clearedWindowsLoop_window_le _ _ _ _ _ _ _) (by omega))
    · exact le_trans (Nat.succ_le_succ (clearedWindowsLoop_window_le _ _ _ _ _ _ _))
        (by omega)
  · exact le_trans (clearedWindowsLoop_window_le _ _ _ _ _ _ _) (by omega)

/-- C10: For every reachable WorkerStats state of the vardiff step
relation, varDiffWindow stays in [0, 6]: assuming the bound holds before
a per-worker vardiff cycle, it holds after — the counter is incremented
only on window completion when the current window length is nonzero (at
index 6 the window length is 0 and the final-stage branch never
increments), and every applied difficulty change resets it to 0.
Consequently `windows[varDiffWindow % 7]` never wraps (the modulus is
the identity), and when the cleared-windows loop runs to completion
without breaking, the post-loop guard `i < varDiffWindow` is never
taken. -/
theorem vardiff_window_bounded (cfg : VardiffCfg) (expectedShareRate : ℚ)
    (clamp : Bool) (now : ℚ) (s : WorkerStats) (diff q : ℚ)
    (h6 : s.varDiffWindow ≤ 6) :
    (vardiffWorkerStep cfg expectedShareRate clamp now s).varDiffWindow ≤ 6 ∧
    s.varDiffWindow % 7 = s.varDiffWindow ∧
    ((clearedWindowsLoop cfg clamp diff q (s.varDiffWindow % 7) 1 s).broke = false →
      ¬ ((clearedWindowsLoop cfg clamp diff q (s.varDiffWindow % 7) 1 s).i <
        (clearedWindowsLoop cfg clamp diff q (s.varDiffWindow % 7) 1 s).stats.varDiffWindow)) := by
  have hmod : s.varDiffWindow % 7 = s.varDiffWindow := Nat.mod_eq_of_lt (by omega)
  refine ⟨?_, hmod, ?_⟩
  · unfold vardiffWorkerStep
    by_cases h1 : s.workerName = ""
    · rw [if_pos h1]
      exact h6
    rw [if_neg h1]
    by_cases h2 : ¬ s.varDiffEnabled = true
    · rw [if_pos h2]
      exact h6
    rw [if_neg h2]
    by_cases h3 : checkWorkerStatus now s = 0
    · rw [if_pos h3]
      exact h6
    rw [if_neg h3]
    by_cases h4 : s.varDiffStartTime = 0
    · rw [if_pos h4]
      exact h6
    rw [if_neg h4]
    dsimp only
    by_cases h5 : windowAt (s.varDiffWindow % 7) = 0
    · rw [if_pos h5]
      split
      · exact le_trans (updateVarDiff_varDiffWindow_le _ _ _ _) h6
      · exact h6
    · rw [if_neg h5]
      refine vardiffLoopRegion_bound _ _ _ _ _ _ _ _ _ _ s ?_
      have hx := windowAt_ne_zero_le_five (s.varDiffWindow % 7) (by omega) h5
      omega
  · intro hnb
    rcases clearedWindowsLoop_spec cfg clamp diff q (s.varDiffWindow % 7) 1 s with h1 | h2
    · rw [h1]
      show ¬ (max 1 (s.varDiffWindow % 7 + 1) < s.varDiffWindow)
      omega
    · have hb := h2.2.1
      rw [hnb] at hb
      exact absurd hb (by simp)

/-- Worker state for the C10 witness: window stage 3, active and armed. -/
def c10Stats : WorkerStats :=
  { getOrCreateWorkerStats "w1" 100000 2048 8888 with
    varDiffWindow := 3, varDiffStartTime := 40000, varDiffSharesFound := 5 }

/-- Witness for the C10 theorem at the concrete stage-3 worker. -/
theorem vardiff_window_bounded_witness :
    c10Stats.varDiffWindow ≤ 6 ∧
    ((vardiffWorkerStep ⟨64, 131072⟩ 10 false 100000 c10Stats).varDiffWindow ≤ 6 ∧
      c10Stats.varDiffWindow % 7 = c10Stats.varDiffWindow ∧
      ((clearedWindowsLoop ⟨64, 131072⟩ false 2048 1 (c10Stats.varDiffWindow % 7) 1
          c10Stats).broke = false →
        ¬ ((clearedWindowsLoop ⟨64, 131072⟩ false 2048 1 (c10Stats.varDiffWindow % 7) 1
            c10Stats).i <
          (clearedWindowsLoop ⟨64, 131072⟩ false 2048 1 (c10Stats.varDiffWindow % 7) 1
            c10Stats).stats.varDiffWindow))) :=
  ⟨by decide, vardiff_window_bounded ⟨64, 131072⟩ 10 false 100000 c10Stats 2048 1 (by decide)⟩
